import Mathlib

/-!
Verification of the idempotent engagement-and-progression engine of the
hokuhoku_imomaru_bot repository.

The Lean definitions below are a shallow embedding of the Python sources:

* `services/daily_reporter.py`  — scheduling gates, report mutation, the
  response sanitizer (`_extract_analysis_text`) and the length-budget
  truncation (`_truncate_analysis`);
* `services/state_store.py`     — `reset_daily_counts` and the idempotency
  guard `acquire_tweet_lock` (a DynamoDB conditional write);
* `services/level_manager.py`   — level computation from the XP table;
* `services/xp_calculator.py`   — activity-kind XP rates;
* `models/bot_state.py`         — the single global state record;
* `lambda_handler.py`           — the per-tweet orchestration step and the
  daily-report step.

Modelling conventions:

* Python `float` XP values are modelled as `ℚ` (all XP arithmetic in the
  sources is sums of the decimal constants 5.0, 2.0, 0.5, 0.1, exactly
  representable; `ℚ` keeps the comparisons faithful).
* A wall-clock instant is the number of minutes since an arbitrary UTC
  epoch (`ℕ`).  JST is the fixed offset UTC+9, so the zone-local hour and
  the zone-local calendar day are pure arithmetic on minutes.  Zone-local
  `YYYY-MM-DD` date strings are modelled by their day number: `strftime`
  is injective on days, so equality of the strings is equality of the day
  numbers.
* Python text is modelled as `List Char` (Python strings are sequences of
  Unicode code points, and `len` counts code points).
* The DynamoDB `processed-tweets` table is modelled as the list of its
  items; its key schema (hash key `tweet_id`, no range key) is taken from
  `infrastructure/stack.py`.
* The `xp_table` dict is modelled by its key-sorted association list,
  which is exactly the order `for level in sorted(self.xp_table.keys())`
  iterates it in; sortedness of the keys is carried as a hypothesis.
-/

namespace ImomaruBot

/-! ### Time model (fixed UTC+9 zone, `JST` in `daily_reporter.py`) -/

/-- Minutes-since-epoch of the JST-local clock for a UTC instant `t`. -/
def jstMinutes (t : Nat) : Nat := t + 9 * 60

/-- The JST-local hour of an instant, as `datetime.astimezone(JST).hour`. -/
def jstHour (t : Nat) : Nat := jstMinutes t / 60 % 24

/-- The JST-local calendar day number of an instant; it models the
`YYYY-MM-DD` string produced by `jst_time.strftime("%Y-%m-%d")`. -/
def jstDay (t : Nat) : Nat := jstMinutes t / 1440

/-! ### `models/bot_state.py` — the `BotState` dataclass

Field for field the dataclass of the source.  `last_daily_report_date` is
an optional JST day number (see the time model above) and
`last_profile_update_month` an optional month number, both standing for
the optional strings of the source. -/

structure BotState where
  cumulative_xp : ℚ := 0
  current_level : ℤ := 1
  latest_tweet_id : Option String := none
  last_updated : String := ""
  oshi_post_count : ℤ := 0
  group_post_count : ℤ := 0
  repost_count : ℤ := 0
  like_count : ℤ := 0
  daily_oshi_count : ℤ := 0
  daily_group_count : ℤ := 0
  daily_repost_count : ℤ := 0
  daily_like_count : ℤ := 0
  daily_xp : ℚ := 0
  last_daily_report_date : Option Nat := none
  last_profile_update_month : Option Nat := none
  total_received_likes : ℤ := 0
  total_received_retweets : ℤ := 0
  daily_image_posted : Bool := false
  deriving Repr, DecidableEq

/-! ### `services/daily_reporter.py` — scheduling gates -/

/-- `DAILY_REPORT_HOUR = 21` (daily_reporter.py line 31). -/
def DAILY_REPORT_HOUR : Nat := 21

/-- `LOW_ACTIVITY_THRESHOLD = 3` (daily_reporter.py line 42). -/
def LOW_ACTIVITY_THRESHOLD : ℤ := 3

/-- `DailyReporter.should_post_daily_report`: true iff the JST hour is at
least `DAILY_REPORT_HOUR` and `last_daily_report_date` differs from
today's JST date. -/
def should_post_daily_report (state : BotState) (t : Nat) : Bool :=
  decide (DAILY_REPORT_HOUR ≤ jstHour t) &&
    decide (state.last_daily_report_date ≠ some (jstDay t))

/-- `DailyReporter.should_post_morning_content`: the source returns
`False` unless the JST hour is exactly 9, else compares the previous
period's oshi count against the threshold. -/
def should_post_morning_content (prev_daily_oshi_count : ℤ) (t : Nat) : Bool :=
  if jstHour t ≠ 9 then false
  else decide (prev_daily_oshi_count ≤ LOW_ACTIVITY_THRESHOLD)

/-- `DailyReporter.should_post_translation`: JST weekday is Sunday.  Day 0
of the epoch is taken to be a Monday, matching `datetime.weekday()` where
Sunday is 6. -/
def should_post_translation (t : Nat) : Bool :=
  decide (jstDay t % 7 = 6)

/-- `DailyReporter.get_today_date_jst` under the day-number model. -/
def get_today_date_jst (t : Nat) : Nat := jstDay t

/-! ### `services/state_store.py` — reset and idempotency guard -/

/-- `StateStore.reset_daily_counts` (state_store.py lines 191-206): zeroes
the five daily counters and returns the state.  Note that the source
touches no other field. -/
def reset_daily_counts (state : BotState) : BotState :=
  { state with
    daily_oshi_count := 0
    daily_group_count := 0
    daily_repost_count := 0
    daily_like_count := 0
    daily_xp := 0 }

/-- One item of the `imomaru-bot-processed-tweets` DynamoDB table.  The
table's only key is `tweet_id` (stack.py); `action_type`, `processed_at`
and `ttl` are plain attributes. -/
structure ProcessedTweetRecord where
  tweet_id : String
  action_type : String
  processed_at : Nat
  ttl : Nat
  deriving Repr, DecidableEq

/-- `self.ttl_seconds = 24 * 60 * 60` (state_store.py line 54). -/
def ttl_seconds : Nat := 24 * 60 * 60

/-- Outcome of the idempotency guard.  The source signals the second case
by raising `TweetAlreadyProcessedError`. -/
inductive AcquireResult where
  | acquired
  | alreadyProcessed
  deriving Repr, DecidableEq

/-- `StateStore.acquire_tweet_lock` (state_store.py lines 209-251): a
`put_item` with `ConditionExpression="attribute_not_exists(tweet_id)"`.
The conditional write fails exactly when an item with the same `tweet_id`
hash key already exists, whatever its `action_type` attribute; on failure
the table is unchanged and the caller sees `alreadyProcessed`. -/
def acquire_tweet_lock (table : List ProcessedTweetRecord)
    (tweetId actionType : String) (now : Nat) :
    AcquireResult × List ProcessedTweetRecord :=
  if table.any (fun r => r.tweet_id == tweetId) then
    (.alreadyProcessed, table)
  else
    (.acquired, ⟨tweetId, actionType, now, now + ttl_seconds⟩ :: table)

/-! ### `services/xp_calculator.py` -/

inductive ActivityType where
  | oshi_post
  | group_post
  | repost
  | like
  deriving Repr, DecidableEq

/-- The default `XPRates` constants. -/
def get_rate : ActivityType → ℚ
  | .oshi_post => 5
  | .group_post => 2
  | .repost => 1 / 2
  | .like => 1 / 10

/-- `XPCalculator.calculate_xp` with the default rates.  The source raises
`ValueError` on a negative count, so the count is a `ℕ` here. -/
def calculate_xp (activityType : ActivityType) (count : Nat := 1) : ℚ :=
  get_rate activityType * count

/-! ### `lambda_handler.py` — orchestration steps

External effects (the text-generation call, the media pipeline, the
outbound post) are parameters: a `Bool` tells whether the corresponding
call succeeded, which is all the control flow of the source inspects. -/

/-- `_post_quote_safe` (lambda_handler.py lines 500-578).  `aiOk` is
success of `ai_generator.generate_response`, `mediaOk` success of the
emotion-image branch (only reachable for `post_type == "oshi"` when no
image was attached today), `postOk` success of `post_tweet`.  Returns
(posted?, state, table); the already-processed path returns `false` and
changes nothing. -/
def post_quote_safe (table : List ProcessedTweetRecord) (state : BotState)
    (tweetId postType : String) (aiOk mediaOk postOk : Bool) (now : Nat) :
    Bool × BotState × List ProcessedTweetRecord :=
  match acquire_tweet_lock table tweetId ("quote_" ++ postType) now with
  | (.alreadyProcessed, t) => (false, state, t)
  | (.acquired, t) =>
    if aiOk then
      let state :=
        if postType == "oshi" && !state.daily_image_posted && mediaOk then
          { state with daily_image_posted := true }
        else state
      if postOk then (true, state, t) else (false, state, t)
    else (false, state, t)

/-- The oshi-original loop body of `_process_bot_logic` (lambda_handler.py
lines 254-287) for a single tweet: quote it via `post_quote_safe` and
grant the OSHI_POST XP delta only when `posted` is true. -/
def handle_oshi_tweet (table : List ProcessedTweetRecord) (state : BotState)
    (tweetId : String) (aiOk mediaOk postOk : Bool) (now : Nat) :
    Bool × BotState × List ProcessedTweetRecord :=
  match post_quote_safe table state tweetId "oshi" aiOk mediaOk postOk now with
  | (posted, state, table) =>
    if posted then
      let xp := calculate_xp .oshi_post
      (true,
        { state with
          cumulative_xp := state.cumulative_xp + xp
          daily_xp := state.daily_xp + xp
          oshi_post_count := state.oshi_post_count + 1
          daily_oshi_count := state.daily_oshi_count + 1 },
        table)
    else (false, state, table)

/-- The daily-report step of `_process_bot_logic` (lambda_handler.py lines
421-438).  `postResult` is the tweet id returned by
`daily_reporter.post_daily_report` (`none` on failure).  On success the
handler sets `last_daily_report_date` to today's JST date and then applies
`reset_daily_counts`; the second component reports
`result["daily_report_posted"]`. -/
def process_daily_report (state : BotState) (t : Nat)
    (postResult : Option String) : BotState × Bool :=
  if should_post_daily_report state t then
    match postResult with
    | some _ =>
      (reset_daily_counts
        { state with last_daily_report_date := some (get_today_date_jst t) },
       true)
    | none => (state, false)
  else (state, false)

/-! ### `services/level_manager.py` — `LevelManager`

The constructor rejects an empty `xp_table`; `self.max_level =
max(xp_table.keys())`.  The table is its key-sorted association list (see
the modelling conventions). -/

/-- The `xp_table` dict `{level: required_xp}` as an association list. -/
abbrev XpTable := List (ℤ × ℤ)

/-- `self.max_level = max(xp_table.keys())`.  Defined on the nonempty
tables the constructor accepts; the `0` branch is the unreachable empty
case. -/
def max_level (t : XpTable) : ℤ :=
  match t.map Prod.fst with
  | [] => 0
  | k :: ks => ks.foldl max k

/-- `LevelManager.get_required_xp`: `self.xp_table.get(level)`. -/
def get_required_xp (t : XpTable) (level : ℤ) : Option ℤ :=
  (t.find? (fun p => p.1 == level)).map Prod.snd

/-- Python `int(...)`: truncation of a rational toward zero (the floor
for a nonnegative argument, the ceiling for a negative one), computed as
the truncating division of the reduced numerator by the denominator. -/
def pyInt (q : ℚ) : ℤ :=
  Int.tdiv q.num (q.den : ℤ)

/-- `LevelManager.get_xp_to_next_level` (level_manager.py lines 43-62):
`None` at or above the max level or when `level+1` is absent, else
`max(0, int(next_level_xp - current_xp))`. -/
def get_xp_to_next_level (t : XpTable) (current_level : ℤ)
    (current_xp : ℚ) : Option ℤ :=
  if max_level t ≤ current_level then none
  else
    match get_required_xp t (current_level + 1) with
    | none => none
    | some next_level_xp => some (max 0 (pyInt ((next_level_xp : ℚ) - current_xp)))

/-- The `for level in sorted(self.xp_table.keys())` loop of
`calculate_level`: `acc` is `current_level`, updated while
`cumulative_xp >= self.xp_table[level]`, with `break` on the first
failure. -/
def calcLevelGo (acc : ℤ) (xp : ℚ) : XpTable → ℤ
  | [] => acc
  | (lvl, thr) :: rest =>
    if (thr : ℚ) ≤ xp then calcLevelGo lvl xp rest else acc

/-- `LevelManager.calculate_level` (level_manager.py lines 64-80). -/
def calculate_level (t : XpTable) (cumulative_xp : ℚ) : ℤ :=
  calcLevelGo 1 cumulative_xp t

/-- `LevelManager.check_level_up` (level_manager.py lines 82-105). -/
def check_level_up (t : XpTable) (current_level : ℤ)
    (cumulative_xp : ℚ) : Bool × ℤ :=
  if max_level t ≤ current_level then (false, current_level)
  else
    let new_level := calculate_level t cumulative_xp
    if current_level < new_level then (true, new_level)
    else (false, current_level)

/-- The keys of the association list are strictly ascending: the
invariant of the key-sorted representation of a Python dict. -/
def SortedKeys (t : XpTable) : Prop :=
  t.Pairwise (fun a b => a.1 < b.1)

/-- Thresholds strictly ascending along the (key-sorted) table: the
"strictly increasing mapping" requirement of the progression table. -/
def SortedThresholds (t : XpTable) : Prop :=
  t.Pairwise (fun a b => a.2 < b.2)

/-- A well-formed progression table: level 1 at threshold 0 first, keys
sorted, thresholds strictly increasing. -/
def IsProgressionTable (t : XpTable) : Prop :=
  t.head? = some (1, 0) ∧ SortedKeys t ∧ SortedThresholds t

def decidablePairwiseOf {α : Type} (R : α → α → Prop) [DecidableRel R] :
    (l : List α) → Decidable (l.Pairwise R)
  | [] => isTrue List.Pairwise.nil
  | a :: l =>
    have _tl : Decidable (l.Pairwise R) := decidablePairwiseOf R l
    decidable_of_iff ((∀ b ∈ l, R a b) ∧ l.Pairwise R)
      (List.pairwise_cons).symm

instance (t : XpTable) : Decidable (SortedKeys t) :=
  decidablePairwiseOf _ t

instance (t : XpTable) : Decidable (SortedThresholds t) :=
  decidablePairwiseOf _ t

instance (t : XpTable) : Decidable (IsProgressionTable t) := by
  unfold IsProgressionTable; infer_instance

/-! ### Python text primitives

Python strings are sequences of Unicode code points; `List Char` models
them with `len` as `List.length`.  `str.find` / `str.rfind` return the
first / last match position (or `-1`, modelled by `none`). -/

/-- Does `needle` occur in `hay` starting at position `p`? -/
def strMatch (hay needle : List Char) (p : Nat) : Bool :=
  decide ((hay.drop p).take needle.length = needle)

/-- All match positions of `needle` in `hay`, in increasing order. -/
def occurrences (hay needle : List Char) : List Nat :=
  (List.range (hay.length + 1)).filter (fun p => strMatch hay needle p)

/-- `str.find`, with `none` for `-1`. -/
def pyFindNat (hay needle : List Char) : Option Nat :=
  (occurrences hay needle).head?

/-- `str.rfind`, with `none` for `-1`. -/
def pyRfindNat (hay needle : List Char) : Option Nat :=
  (occurrences hay needle).getLast?

/-- The whitespace set of Python `str.strip` / `str.isspace`, restricted
to the characters that can occur here: ASCII whitespace and the
ideographic space. -/
def isPyWhitespace (c : Char) : Bool :=
  c == ' ' || c == '\t' || c == '\n' || c == '\r' || c == '\x0b' ||
    c == '\x0c' || c == '　'

/-- Python `str.strip()`. -/
def pyStrip (s : List Char) : List Char :=
  ((s.dropWhile isPyWhitespace).reverse.dropWhile isPyWhitespace).reverse

/-! ### `DailyReporter._truncate_analysis` (daily_reporter.py lines 303-335) -/

/-- `summary_markers` of the source, in order. -/
def summary_markers : List (List Char) :=
  ["全体として".toList, "まとめると".toList, "総じて".toList,
   "結論として".toList, "全体的に".toList]

/-- The summary-marker loop: the first marker found (by `rfind`) yields
`text[pos:]` and breaks; otherwise `summary` stays empty. -/
def find_summary (text : List Char) : List (List Char) → List Char
  | [] => []
  | m :: ms =>
    match pyRfindNat text m with
    | some pos => text.drop pos
    | none => find_summary text ms

/-- The sentence separators tried by the truncation fallback, in order. -/
def truncation_seps : List Char :=
  ['。', '！', '✨', '💜', '🎀', '\n']

/-- The final `for sep in [...]` loop: return `truncated[:pos+1]` for the
first separator whose last occurrence lies past `max_len // 2`. -/
def sep_loop (truncated : List Char) (max_len : Nat) : List Char → List Char
  | [] => truncated
  | c :: cs =>
    match pyRfindNat truncated [c] with
    | some pos =>
      if max_len / 2 < pos then truncated.take (pos + 1)
      else sep_loop truncated max_len cs
    | none => sep_loop truncated max_len cs

/-- `DailyReporter._truncate_analysis`. -/
def truncate_analysis (text : List Char) (max_len : Nat) : List Char :=
  if text.length ≤ max_len then text
  else
    let summary := find_summary text summary_markers
    if summary ≠ [] ∧ summary.length + 10 < max_len then
      match pyFindNat text ['\n'] with
      | some first_line_end =>
        if 0 < first_line_end ∧ first_line_end + summary.length + 1 ≤ max_len then
          text.take first_line_end ++ '\n' :: summary
        else summary
      | none => summary
    else
      sep_loop (text.take max_len) max_len truncation_seps

/-! ### `DailyReporter._extract_analysis_text` (daily_reporter.py lines 250-301)

The source is a pipeline of `json.loads`, `str.replace` and `re.sub`
stages.  Each stage is embedded as an executable function; the recursive
ones take an explicit fuel argument (always instantiated with more than
the input length, and every iteration consumes at least one character, so
the fuel never runs out). -/

/-- JSON values, for the `json.loads(raw)` step. -/
inductive Json where
  | jnull
  | jbool (b : Bool)
  | jnum (q : ℚ)
  | jstr (s : List Char)
  | jarr (xs : List Json)
  | jobj (kvs : List (List Char × Json))
  deriving Repr

/-- The whitespace accepted between JSON tokens. -/
def jsonWs (c : Char) : Bool :=
  c == ' ' || c == '\t' || c == '\n' || c == '\r'

def skipJsonWs (s : List Char) : List Char := s.dropWhile jsonWs

def hexVal (c : Char) : Option Nat :=
  if c.isDigit then some (c.toNat - 48)
  else if 'a' ≤ c ∧ c ≤ 'f' then some (c.toNat - 87)
  else if 'A' ≤ c ∧ c ≤ 'F' then some (c.toNat - 55)
  else none

def digitsToNat (ds : List Char) : Nat :=
  ds.foldl (fun a c => a * 10 + (c.toNat - 48)) 0

/-- Assemble a JSON number from its sign, digits and exponent. -/
def mkNum (neg : Bool) (intDigits fracDigits : List Char) (e : ℤ) : ℚ :=
  let mantissa : ℚ := (digitsToNat (intDigits ++ fracDigits) : ℚ) /
    ((10 : ℚ) ^ fracDigits.length)
  let scaled : ℚ :=
    if 0 ≤ e then mantissa * (10 : ℚ) ^ e.toNat
    else mantissa / (10 : ℚ) ^ (-e).toNat
  if neg then -scaled else scaled

def finishExp (neg : Bool) (intDigits fracDigits : List Char)
    (r : List Char) : Option (Json × List Char) :=
  let (eneg, r1) : Bool × List Char :=
    match r with
    | '-' :: rr => (true, rr)
    | '+' :: rr => (false, rr)
    | _ => (false, r)
  let ed := r1.takeWhile Char.isDigit
  if ed = [] then none
  else
    some (.jnum (mkNum neg intDigits fracDigits
      (if eneg then -(digitsToNat ed : ℤ) else (digitsToNat ed : ℤ))),
      r1.drop ed.length)

def finishNumber (neg : Bool) (intDigits fracDigits : List Char)
    (s : List Char) : Option (Json × List Char) :=
  match s with
  | 'e' :: r => finishExp neg intDigits fracDigits r
  | 'E' :: r => finishExp neg intDigits fracDigits r
  | _ => some (.jnum (mkNum neg intDigits fracDigits 0), s)

def parseNumber (s : List Char) : Option (Json × List Char) :=
  let (neg, s1) : Bool × List Char :=
    match s with
    | '-' :: r => (true, r)
    | _ => (false, s)
  let intDigits := s1.takeWhile Char.isDigit
  if intDigits = [] then none
  else if intDigits.head? = some '0' ∧ 1 < intDigits.length then none
  else
    let s2 := s1.drop intDigits.length
    match s2 with
    | '.' :: r =>
      let fd := r.takeWhile Char.isDigit
      if fd = [] then none
      else finishNumber neg intDigits fd (r.drop fd.length)
    | _ => finishNumber neg intDigits [] s2

mutual

/-- Recursive-descent JSON parser (`json.loads`); returns the value and
the unconsumed remainder. -/
def parseValue : Nat → List Char → Option (Json × List Char)
  | 0, _ => none
  | Nat.succ f, s =>
    match skipJsonWs s with
    | '{' :: rest =>
      (match skipJsonWs rest with
       | '}' :: r2 => some (.jobj [], r2)
       | _ => parseMembers f rest [])
    | '[' :: rest =>
      (match skipJsonWs rest with
       | ']' :: r2 => some (.jarr [], r2)
       | _ => parseElements f rest [])
    | '"' :: rest =>
      (match parseStringBody f rest [] with
       | some (cs, r) => some (.jstr cs, r)
       | none => none)
    | 't' :: 'r' :: 'u' :: 'e' :: r => some (.jbool true, r)
    | 'f' :: 'a' :: 'l' :: 's' :: 'e' :: r => some (.jbool false, r)
    | 'n' :: 'u' :: 'l' :: 'l' :: r => some (.jnull, r)
    | rest => parseNumber rest

def parseMembers : Nat → List Char → List (List Char × Json) →
    Option (Json × List Char)
  | 0, _, _ => none
  | Nat.succ f, s, acc =>
    match skipJsonWs s with
    | '"' :: rest =>
      (match parseStringBody f rest [] with
       | some (key, r1) =>
         (match skipJsonWs r1 with
          | ':' :: r2 =>
            (match parseValue f r2 with
             | some (v, r3) =>
               (match skipJsonWs r3 with
                | ',' :: r4 => parseMembers f r4 (acc ++ [(key, v)])
                | '}' :: r4 => some (.jobj (acc ++ [(key, v)]), r4)
                | _ => none)
             | none => none)
          | _ => none)
       | none => none)
    | _ => none

def parseElements : Nat → List Char → List Json → Option (Json × List Char)
  | 0, _, _ => none
  | Nat.succ f, s, acc =>
    match parseValue f s with
    | some (v, r1) =>
      (match skipJsonWs r1 with
       | ',' :: r2 => parseElements f r2 (acc ++ [v])
       | ']' :: r2 => some (.jarr (acc ++ [v]), r2)
       | _ => none)
    | none => none

/-- Body of a JSON string after the opening quote.  `Char.ofNat` stands
in for the `\uXXXX` decoding (surrogate pairing is not modelled; no
input of interest contains it). -/
def parseStringBody : Nat → List Char → List Char →
    Option (List Char × List Char)
  | 0, _, _ => none
  | Nat.succ f, s, acc =>
    match s with
    | [] => none
    | '"' :: r => some (acc, r)
    | '\\' :: rest =>
      (match rest with
       | '"' :: r => parseStringBody f r (acc ++ ['"'])
       | '\\' :: r => parseStringBody f r (acc ++ ['\\'])
       | '/' :: r => parseStringBody f r (acc ++ ['/'])
       | 'b' :: r => parseStringBody f r (acc ++ ['\x08'])
       | 'f' :: r => parseStringBody f r (acc ++ ['\x0c'])
       | 'n' :: r => parseStringBody f r (acc ++ ['\n'])
       | 'r' :: r => parseStringBody f r (acc ++ ['\r'])
       | 't' :: r => parseStringBody f r (acc ++ ['\t'])
       | 'u' :: h1 :: h2 :: h3 :: h4 :: r =>
         (match hexVal h1, hexVal h2, hexVal h3, hexVal h4 with
          | some a, some b, some c, some d =>
            parseStringBody f r
              (acc ++ [Char.ofNat (((a * 16 + b) * 16 + c) * 16 + d)])
          | _, _, _, _ => none)
       | _ => none)
    | c :: r => if c.toNat < 32 then none else parseStringBody f r (acc ++ [c])

end

def responseKey : List Char := "response".toList

/-- Python dicts built from duplicate JSON keys keep the last value. -/
def lookupLastKey (kvs : List (List Char × Json)) (key : List Char) :
    Option Json :=
  ((kvs.reverse).find? (fun p => decide (p.1 = key))).map Prod.snd

/-- Step 1 of `_extract_analysis_text`: if `raw` parses as a JSON object
with a `"response"` field, use that field as the working text, else keep
`raw`.  (A non-string `"response"` value makes the source raise later;
that path returns `raw` here and is unreachable in the claims.) -/
def jsonExtractResponse (raw : List Char) : List Char :=
  match parseValue (raw.length + 8) raw with
  | some (v, rest) =>
    if skipJsonWs rest = [] then
      match v with
      | .jobj kvs =>
        (match lookupLastKey kvs responseKey with
         | some (.jstr s) => s
         | some _ => raw
         | none => raw)
      | _ => raw
    else raw
  | none => raw

/-- Step 2: `text.replace("\\n", "\n")` (left-to-right, non-overlapping). -/
def unescapeNewlines : List Char → List Char
  | '\\' :: 'n' :: rest => '\n' :: unescapeNewlines rest
  | c :: rest => c :: unescapeNewlines rest
  | [] => []

def thinkOpen : List Char := "<think>".toList

def thinkClose : List Char := "</think>".toList

/-- Step 3a: the span captured by
`re.search(r"<think>(.*?)(?:</think>|$)", text, DOTALL)`, or `[]` when
there is no span.  When no closing marker exists the lazy group stops at
`$`, which in Python also matches just before a single final newline. -/
def think_content (text : List Char) : List Char :=
  match pyFindNat text thinkOpen with
  | none => []
  | some p =>
    let rest := text.drop (p + thinkOpen.length)
    match pyFindNat rest thinkClose with
    | some q => rest.take q
    | none => if rest.getLast? == some '\n' then rest.dropLast else rest

/-- Step 3b: `re.sub(r"<think>.*?</think>", "", text, DOTALL)` — every
minimal open/close span is removed, scanning left to right. -/
def removeThinkPairsF : Nat → List Char → List Char
  | 0, s => s
  | Nat.succ f, s =>
    match pyFindNat s thinkOpen with
    | none => s
    | some p =>
      let rest := s.drop (p + thinkOpen.length)
      match pyFindNat rest thinkClose with
      | none => s
      | some q => s.take p ++ removeThinkPairsF f (rest.drop (q + thinkClose.length))

def removeThinkPairs (s : List Char) : List Char :=
  removeThinkPairsF (s.length + 1) s

/-- Step 3c: `re.sub(r"<think>.*", "", cleaned, DOTALL)` — an unclosed
opening marker deletes the rest of the text. -/
def removeUnclosedThink (s : List Char) : List Char :=
  match pyFindNat s thinkOpen with
  | none => s
  | some p => s.take p

/-- Character class `[\s,"]` of the JSON-remnant regex (the `\s` and `\w`
classes are modelled on the characters that occur in this system). -/
def isRemnantClass (c : Char) : Bool :=
  isPyWhitespace c || c == ',' || c == '"'

def isWordChar (c : Char) : Bool :=
  c.isAlphanum || c == '_'

/-- The `\s*"?\w+"?\s*:` tail of the JSON-remnant regex, after the
leading `[\s,"]+` has consumed some prefix.  The classes are pairwise
disjoint, so the match is deterministic. -/
def remnantTail (t : List Char) : Bool :=
  let t1 := if t.head? == some '"' then t.drop 1 else t
  let w := t1.takeWhile isWordChar
  if w = [] then false
  else
    let t2 := t1.drop w.length
    let t3 := if t2.head? == some '"' then t2.drop 1 else t2
    let t4 := t3.dropWhile isPyWhitespace
    t4.head? == some ':'

/-- `re.match` of `^[\s,"]+\s*"?\w+"?\s*:.*` (DOTALL, no MULTILINE): the
anchor is the string start and the trailing `.*` runs to the end, so a
match erases the whole string.  The leading one-or-more class may consume
any nonempty prefix of the maximal class run. -/
def remnantMatch (s : List Char) : Bool :=
  let run := (s.takeWhile isRemnantClass).length
  (List.range run).any (fun j => remnantTail (s.drop (j + 1)))

/-- Step 3d: `re.sub(r'^[\s,"]+\s*"?\w+"?\s*:.*', "", cleaned, DOTALL)`. -/
def jsonRemnantSub (s : List Char) : List Char :=
  if remnantMatch s then [] else s

/-- `re.split(r"[。\n]", think_content)`: split at every occurrence of
the Japanese full stop or a line break, keeping empty pieces. -/
def splitSentenceSeps : List Char → List (List Char)
  | [] => [[]]
  | c :: cs =>
    if c == '。' || c == '\n' then [] :: splitSentenceSeps cs
    else
      match splitSentenceSeps cs with
      | [] => [[c]]
      | g :: gs => (c :: g) :: gs

/-- `[s.strip() for s in re.split(r"[。\n]", think_content) if s.strip()]`. -/
def sentencesOf (tc : List Char) : List (List Char) :=
  ((splitSentenceSeps tc).map pyStrip).filter (fun s => !s.isEmpty)

def star2 : List Char := ['*', '*']

/-- Step 4a: `re.sub(r"\*\*(.*?)\*\*", r"\1", cleaned)` — unwrap bold
pairs; without DOTALL the pair must sit on one line. -/
def stripBoldF : Nat → List Char → List Char
  | 0, s => s
  | Nat.succ f, s =>
    match pyFindNat s star2 with
    | none => s
    | some p =>
      let rest := s.drop (p + 2)
      let sameLine := rest.takeWhile (fun c => !(c == '\n'))
      match pyFindNat sameLine star2 with
      | some q => s.take p ++ rest.take q ++ stripBoldF f (rest.drop (q + 2))
      | none => s.take (p + 2) ++ stripBoldF f rest

def stripBold (s : List Char) : List Char :=
  stripBoldF (s.length + 1) s

/-- Step 4b: `re.sub(r"^#{1,6}\s+", "", cleaned, MULTILINE)`: at a line
start, up to six `#` followed by at least one whitespace character (the
greedy `\s+` may run across line breaks) are removed. -/
def stripHeadingsF : Nat → Bool → List Char → List Char
  | 0, _, s => s
  | Nat.succ f, atStart, s =>
    match s with
    | [] => []
    | c :: cs =>
      if atStart then
        let hashes := (c :: cs).takeWhile (fun x => x == '#')
        if 1 ≤ hashes.length ∧ hashes.length ≤ 6 then
          let after := (c :: cs).drop hashes.length
          let ws := after.takeWhile isPyWhitespace
          if ws = [] then c :: stripHeadingsF f (c == '\n') cs
          else stripHeadingsF f (ws.getLast? == some '\n') (after.drop ws.length)
        else c :: stripHeadingsF f (c == '\n') cs
      else c :: stripHeadingsF f (c == '\n') cs

def stripHeadings (s : List Char) : List Char :=
  stripHeadingsF (s.length + 1) true s

/-- Step 4c: `re.sub(r"---+", "", cleaned)`: every maximal run of three
or more hyphens is removed. -/
def stripRulesF : Nat → List Char → List Char
  | 0, s => s
  | Nat.succ f, s =>
    match s with
    | [] => []
    | c :: cs =>
      if c == '-' then
        let run := (c :: cs).takeWhile (fun x => x == '-')
        if 3 ≤ run.length then stripRulesF f ((c :: cs).drop run.length)
        else c :: stripRulesF f cs
      else c :: stripRulesF f cs

def stripRules (s : List Char) : List Char :=
  stripRulesF (s.length + 1) s

/-- The backtick character (written by code point to keep it out of the
source text). -/
def backtickChar : Char := Char.ofNat 96

/-- Step 4d: unwrap inline code spans, keeping the inner text; an empty
span does not match and its opening backtick is kept. -/
def stripCodeF : Nat → List Char → List Char
  | 0, s => s
  | Nat.succ f, s =>
    match s with
    | [] => []
    | c :: cs =>
      if c == backtickChar then
        match pyFindNat cs [backtickChar] with
        | some q =>
          if 0 < q then cs.take q ++ stripCodeF f (cs.drop (q + 1))
          else c :: stripCodeF f cs
        | none => c :: stripCodeF f cs
      else c :: stripCodeF f cs

def stripCode (s : List Char) : List Char :=
  stripCodeF (s.length + 1) s

/-- Step 5: `re.sub(r"\n{3,}", "\n\n", cleaned)`. -/
def collapseBlankF : Nat → List Char → List Char
  | 0, s => s
  | Nat.succ f, s =>
    match s with
    | [] => []
    | c :: cs =>
      if c == '\n' then
        let run := (c :: cs).takeWhile (fun x => x == '\n')
        if 3 ≤ run.length then
          '\n' :: '\n' :: collapseBlankF f ((c :: cs).drop run.length)
        else c :: collapseBlankF f cs
      else c :: collapseBlankF f cs

def collapseBlank (s : List Char) : List Char :=
  collapseBlankF (s.length + 1) s

/-- Step 6a: `re.sub(r"[（(]\d{15,}[）)]", "", cleaned)` (`\d` modelled as
the ASCII digits, the only digits these identifiers contain). -/
def scrubBracketedIdsF : Nat → List Char → List Char
  | 0, s => s
  | Nat.succ f, s =>
    match s with
    | [] => []
    | c :: cs =>
      if c == '（' || c == '(' then
        let run := cs.takeWhile Char.isDigit
        if 15 ≤ run.length then
          match (cs.drop run.length).head? with
          | some c2 =>
            if c2 == '）' || c2 == ')' then
              scrubBracketedIdsF f (cs.drop (run.length + 1))
            else c :: scrubBracketedIdsF f cs
          | none => c :: scrubBracketedIdsF f cs
        else c :: scrubBracketedIdsF f cs
      else c :: scrubBracketedIdsF f cs

def scrubBracketedIds (s : List Char) : List Char :=
  scrubBracketedIdsF (s.length + 1) s

/-- Step 6b: `re.sub(r"\d{15,}", "", cleaned)`: every maximal digit run
of length at least 15 is removed. -/
def scrubLongDigitsF : Nat → List Char → List Char
  | 0, s => s
  | Nat.succ f, s =>
    match s with
    | [] => []
    | c :: cs =>
      if c.isDigit then
        let run := (c :: cs).takeWhile Char.isDigit
        if 15 ≤ run.length then scrubLongDigitsF f ((c :: cs).drop run.length)
        else run ++ scrubLongDigitsF f ((c :: cs).drop run.length)
      else c :: scrubLongDigitsF f cs

def scrubLongDigits (s : List Char) : List Char :=
  scrubLongDigitsF (s.length + 1) s

/-- Steps 4-7 of the pipeline (everything after the think-fallback):
markup flattening, blank-line collapsing, id scrubbing, final strip. -/
def postprocess_stages (cleaned : List Char) : List Char :=
  pyStrip (scrubLongDigits (scrubBracketedIds (collapseBlank
    (stripCode (stripRules (stripHeadings (stripBold cleaned)))))))

/-- `DailyReporter._extract_analysis_text`, the whole pipeline in source
order. -/
def extract_analysis_text (raw : List Char) : List Char :=
  let text := unescapeNewlines (jsonExtractResponse raw)
  let tc := think_content text
  let cleaned := removeThinkPairs text
  let cleaned := removeUnclosedThink cleaned
  let cleaned := jsonRemnantSub cleaned
  let cleaned := pyStrip cleaned
  let cleaned :=
    if cleaned = [] ∧ tc ≠ [] then
      match (sentencesOf tc).getLast? with
      | some last => last
      | none => cleaned
    else cleaned
  postprocess_stages cleaned

/-! ## Theorems about the embedded program -/

/-- C1: acquiring the idempotency guard twice for one post id yields
`acquired` then `alreadyProcessed` (for any pair of action kinds), and the
orchestrator grants no score for the second call: after processing the
same oshi post twice, the cumulative XP has grown by exactly one
OSHI_POST delta and the second pass leaves the state unchanged. -/
theorem tweet_lock_idempotent_single_grant
    (table : List ProcessedTweetRecord) (state : BotState)
    (tweetId a1 a2 : String) (n1 n2 : Nat) (aiOk2 mediaOk2 postOk2 : Bool)
    (h : table.any (fun r => r.tweet_id == tweetId) = false) :
    (acquire_tweet_lock table tweetId a1 n1).1 = .acquired ∧
    (acquire_tweet_lock (acquire_tweet_lock table tweetId a1 n1).2
        tweetId a2 n2).1 = .alreadyProcessed ∧
    ((handle_oshi_tweet table state tweetId true true true n1).1 = true ∧
     (handle_oshi_tweet
        (handle_oshi_tweet table state tweetId true true true n1).2.2
        (handle_oshi_tweet table state tweetId true true true n1).2.1
        tweetId aiOk2 mediaOk2 postOk2 n2).1 = false ∧
     (handle_oshi_tweet
        (handle_oshi_tweet table state tweetId true true true n1).2.2
        (handle_oshi_tweet table state tweetId true true true n1).2.1
        tweetId aiOk2 mediaOk2 postOk2 n2).2.1 =
       (handle_oshi_tweet table state tweetId true true true n1).2.1 ∧
     (handle_oshi_tweet table state tweetId true true true n1).2.1.cumulative_xp =
       state.cumulative_xp + calculate_xp .oshi_post) := by
  refine ⟨by simp [acquire_tweet_lock, h], ?_, ?_⟩
  · simp [acquire_tweet_lock, h]
  · by_cases himg : state.daily_image_posted <;>
      simp [handle_oshi_tweet, post_quote_safe, acquire_tweet_lock, h, himg,
        calculate_xp, get_rate]

/-- Witness for C1 at a concrete input: empty table, default state. -/
theorem tweet_lock_idempotent_single_grant_witness :
    (acquire_tweet_lock [] "100" "quote_oshi" 0).1 = .acquired ∧
    (acquire_tweet_lock (acquire_tweet_lock [] "100" "quote_oshi" 0).2
        "100" "quote_oshi" 1).1 = .alreadyProcessed ∧
    ((handle_oshi_tweet [] {} "100" true true true 0).1 = true ∧
     (handle_oshi_tweet
        (handle_oshi_tweet [] {} "100" true true true 0).2.2
        (handle_oshi_tweet [] {} "100" true true true 0).2.1
        "100" true true true 1).1 = false ∧
     (handle_oshi_tweet
        (handle_oshi_tweet [] {} "100" true true true 0).2.2
        (handle_oshi_tweet [] {} "100" true true true 0).2.1
        "100" true true true 1).2.1 =
       (handle_oshi_tweet [] {} "100" true true true 0).2.1 ∧
     (handle_oshi_tweet [] {} "100" true true true 0).2.1.cumulative_xp =
       BotState.cumulative_xp {} + calculate_xp .oshi_post) :=
  tweet_lock_idempotent_single_grant [] {} "100" "quote_oshi" "quote_oshi"
    0 1 true true true (by decide)

/-- C2 counterexample: at JST 22:59 of day 1 with the last report dated
day 0, the gate fires even though the JST hour is 22, not at least 23 —
the claim's "true iff hour ≥ 23" and "at 22:59 it returns false" are both
refuted (the source threshold `DAILY_REPORT_HOUR` is 21). -/
theorem daily_report_gate_2259_counterexample :
    should_post_daily_report { last_daily_report_date := some 0 } 2279 = true ∧
    jstHour 2279 = 22 ∧ ¬ (23 ≤ jstHour 2279) := by decide

/-- C2 amended: the gate is true iff the JST hour is at least 21 (the
source's `DAILY_REPORT_HOUR`) and the stored report date differs from
today's JST date; at JST 23:05 of day 1 with the last report dated day 0
it fires. -/
theorem daily_report_gate_spec :
    (∀ (state : BotState) (t : Nat),
       should_post_daily_report state t = true ↔
         (21 ≤ jstHour t ∧ state.last_daily_report_date ≠ some (jstDay t))) ∧
    should_post_daily_report { last_daily_report_date := some 0 } 2285 = true ∧
    jstHour 2285 = 23 := by
  refine ⟨fun state t => ?_, by decide, by decide⟩
  simp [should_post_daily_report, DAILY_REPORT_HOUR]

/-- Witness for C2: the amended gate equivalence applied at JST 23:10 of
day 1. -/
theorem daily_report_gate_spec_witness :
    should_post_daily_report { last_daily_report_date := some 0 } 2290 = true :=
  (daily_report_gate_spec.1 { last_daily_report_date := some 0 } 2290).mpr
    (by decide)

/-- C3 counterexample: after an acquisition for post id "t1" under action
kind "quote_oshi", a second acquisition for the same post id under the
distinct action kind "retweet_oshi" fails — the conditional write is
keyed by the post id alone, not by the (post id, action kind) pair. -/
theorem tweet_lock_two_kinds_counterexample :
    (acquire_tweet_lock [] "t1" "quote_oshi" 0).1 = .acquired ∧
    (acquire_tweet_lock (acquire_tweet_lock [] "t1" "quote_oshi" 0).2
        "t1" "retweet_oshi" 0).1 = .alreadyProcessed := by decide

/-- C3 amended: the conditional write fails exactly when a record with
the same post id already exists, whatever its action kind (and then the
table is unchanged); hence for one post id only the first acquisition
succeeds, across all action kinds. -/
theorem tweet_lock_keyed_by_post_id
    (table : List ProcessedTweetRecord) (tweetId a1 a2 : String)
    (n1 n2 : Nat) (h : table.any (fun r => r.tweet_id == tweetId) = false) :
    (acquire_tweet_lock table tweetId a1 n1).1 = .acquired ∧
    (acquire_tweet_lock (acquire_tweet_lock table tweetId a1 n1).2
        tweetId a2 n2).1 = .alreadyProcessed ∧
    ∀ (t : List ProcessedTweetRecord) (a : String) (n : Nat),
      ((acquire_tweet_lock t tweetId a n).1 = .alreadyProcessed ↔
        ∃ r ∈ t, r.tweet_id = tweetId) ∧
      ((acquire_tweet_lock t tweetId a n).1 = .alreadyProcessed →
        (acquire_tweet_lock t tweetId a n).2 = t) := by
  refine ⟨by simp [acquire_tweet_lock, h], by simp [acquire_tweet_lock, h],
    fun t a n => ?_⟩
  by_cases ht : t.any (fun r => r.tweet_id == tweetId)
  · constructor
    · simp only [acquire_tweet_lock, ht, if_true]
      simpa [List.any_eq_true] using ht
    · intro _; simp [acquire_tweet_lock, ht]
  · constructor
    · simp only [acquire_tweet_lock, ht, if_false]
      constructor
      · intro hcontra; cases hcontra
      · intro hex
        exact absurd (List.any_eq_true.mpr
          (by obtain ⟨r, hr, hid⟩ := hex; exact ⟨r, hr, by simp [hid]⟩)) ht
    · intro hcontra
      simp [acquire_tweet_lock, ht] at hcontra

/-- Witness for C3 at a concrete input. -/
theorem tweet_lock_keyed_by_post_id_witness :
    (acquire_tweet_lock [] "t9" "quote_group" 5).1 = .acquired ∧
    (acquire_tweet_lock (acquire_tweet_lock [] "t9" "quote_group" 5).2
        "t9" "retweet_group" 6).1 = .alreadyProcessed ∧
    ∀ (t : List ProcessedTweetRecord) (a : String) (n : Nat),
      ((acquire_tweet_lock t "t9" a n).1 = .alreadyProcessed ↔
        ∃ r ∈ t, r.tweet_id = "t9") ∧
      ((acquire_tweet_lock t "t9" a n).1 = .alreadyProcessed →
        (acquire_tweet_lock t "t9" a n).2 = t) :=
  tweet_lock_keyed_by_post_id [] "t9" "quote_group" "retweet_group" 5 6
    (by decide)

/-- C4: the morning-content gate at the failing input.  At JST 10:30 with
a previous-period count of 2 (at most the threshold 3) the source returns
`false`, and at JST 9:00 it returns `true` — the source tests the JST
hour against 9 where the claim (and the repository's own tests) demand
10. -/
theorem morning_content_gate_divergence :
    jstHour 90 = 10 ∧ should_post_morning_content 2 90 = false ∧
    jstHour 0 = 9 ∧ should_post_morning_content 2 0 = true := by decide

/-- C5: the daily-report mutation at the failing input.  With the report
posted (gate true, post succeeded), the five daily counters are reset and
the report date advances, but `daily_image_posted` stays `true` — the
source never resets the media flag (and `BotState` has no
`prev_daily_oshi_count` field to save the pre-reset count into), contrary
to the claim and to the repository's own tests. -/
theorem daily_report_reset_divergence :
    (process_daily_report
      { daily_oshi_count := 7, daily_image_posted := true,
        last_daily_report_date := some 0 } 2285 (some "900")).2 = true ∧
    (process_daily_report
      { daily_oshi_count := 7, daily_image_posted := true,
        last_daily_report_date := some 0 } 2285 (some "900")).1.daily_image_posted
      = true ∧
    (process_daily_report
      { daily_oshi_count := 7, daily_image_posted := true,
        last_daily_report_date := some 0 } 2285 (some "900")).1.daily_oshi_count
      = 0 := by decide

/-! ### Lemmas about the `calculate_level` loop -/

/-- The loop result is the accumulator or a level of the table whose
threshold the score reaches. -/
lemma calcLevelGo_eq_or_mem (xp : ℚ) :
    ∀ (l : XpTable) (acc : ℤ),
      calcLevelGo acc xp l = acc ∨
        ∃ p ∈ l, p.1 = calcLevelGo acc xp l ∧ (p.2 : ℚ) ≤ xp := by
  intro l
  induction l with
  | nil => intro acc; left; rfl
  | cons hd tl ih =>
    intro acc
    obtain ⟨lvl, thr⟩ := hd
    by_cases h : (thr : ℚ) ≤ xp
    · rcases ih lvl with h1 | ⟨p, hp, h2, h3⟩
      · right
        exact ⟨(lvl, thr), List.mem_cons_self _ _,
          by simp [calcLevelGo, h, h1], h⟩
      · right
        exact ⟨p, List.mem_cons_of_mem _ hp,
          by simpa [calcLevelGo, h] using h2, h3⟩
    · left; simp [calcLevelGo, h]

/-- The loop never drops below its accumulator when the accumulator is a
lower bound of the (sorted) keys. -/
lemma calcLevelGo_ge (xp : ℚ) :
    ∀ (l : XpTable) (acc : ℤ), l.Pairwise (fun p q => p.1 < q.1) →
      (∀ p ∈ l, acc ≤ p.1) → acc ≤ calcLevelGo acc xp l := by
  intro l
  induction l with
  | nil => intro acc _ _; exact le_refl acc
  | cons hd tl ih =>
    intro acc hk hacc
    obtain ⟨lvl, thr⟩ := hd
    rw [List.pairwise_cons] at hk
    by_cases h : (thr : ℚ) ≤ xp
    · have h1 : acc ≤ lvl := hacc (lvl, thr) (List.mem_cons_self _ _)
      have h2 : lvl ≤ calcLevelGo lvl xp tl :=
        ih lvl hk.2 (fun q hq => le_of_lt (hk.1 q hq))
      simpa [calcLevelGo, h] using le_trans h1 h2
    · simp [calcLevelGo, h]

/-- Every table entry whose threshold the score reaches is at most the
loop result (keys sorted, thresholds sorted). -/
lemma calcLevelGo_upper (xp : ℚ) :
    ∀ (l : XpTable) (acc : ℤ), l.Pairwise (fun p q => p.1 < q.1) →
      l.Pairwise (fun p q => p.2 < q.2) →
      ∀ p ∈ l, (p.2 : ℚ) ≤ xp → p.1 ≤ calcLevelGo acc xp l := by
  intro l
  induction l with
  | nil => intro acc _ _ p hp; exact absurd hp (List.not_mem_nil p)
  | cons hd tl ih =>
    intro acc hk ht p hp hpx
    obtain ⟨lvl, thr⟩ := hd
    rw [List.pairwise_cons] at hk ht
    by_cases h : (thr : ℚ) ≤ xp
    · simp only [calcLevelGo, if_pos h]
      rcases List.mem_cons.mp hp with rfl | hptl
      · exact calcLevelGo_ge xp tl lvl hk.2 (fun q hq => le_of_lt (hk.1 q hq))
      · exact ih lvl hk.2 ht.2 p hptl hpx
    · simp only [calcLevelGo, if_neg h]
      rcases List.mem_cons.mp hp with rfl | hptl
      · exact absurd hpx h
      · have hlt : (thr : ℚ) < (p.2 : ℚ) := by exact_mod_cast ht.1 p hptl
        exact absurd (le_trans (le_of_lt hlt) hpx) h

/-- Monotonicity of the loop in the score. -/
lemma calcLevelGo_mono (a b : ℚ) (hab : a ≤ b) :
    ∀ (l : XpTable) (acc : ℤ), l.Pairwise (fun p q => p.1 < q.1) →
      (∀ p ∈ l, acc ≤ p.1) → calcLevelGo acc a l ≤ calcLevelGo acc b l := by
  intro l
  induction l with
  | nil => intro acc _ _; exact le_refl _
  | cons hd tl ih =>
    intro acc hk hacc
    obtain ⟨lvl, thr⟩ := hd
    rw [List.pairwise_cons] at hk
    by_cases h1 : (thr : ℚ) ≤ a
    · have h2 : (thr : ℚ) ≤ b := le_trans h1 hab
      simp only [calcLevelGo, if_pos h1, if_pos h2]
      exact ih lvl hk.2 (fun q hq => le_of_lt (hk.1 q hq))
    · by_cases h2 : (thr : ℚ) ≤ b
      · simp only [calcLevelGo, if_neg h1, if_pos h2]
        exact le_trans (hacc (lvl, thr) (List.mem_cons_self _ _))
          (calcLevelGo_ge b tl lvl hk.2 (fun q hq => le_of_lt (hk.1 q hq)))
      · simp only [calcLevelGo, if_neg h1, if_neg h2]
        exact le_refl acc

lemma progTable_shape {t : XpTable} (h : IsProgressionTable t) :
    ∃ rest, t = (1, 0) :: rest := by
  obtain ⟨hh, _, _⟩ := h
  cases t with
  | nil => simp at hh
  | cons hd tl =>
    simp only [List.head?_cons, Option.some_inj] at hh
    exact ⟨tl, by rw [hh]⟩

lemma progTable_one_le {t : XpTable} (h : IsProgressionTable t) :
    ∀ p ∈ t, 1 ≤ p.1 := by
  obtain ⟨rest, ht⟩ := progTable_shape h
  obtain ⟨_, hk, _⟩ := h
  subst ht
  rw [SortedKeys, List.pairwise_cons] at hk
  intro p hp
  rcases List.mem_cons.mp hp with rfl | hptl
  · exact le_refl 1
  · exact le_of_lt (hk.1 p hptl)

/-- C6: for every well-formed progression table (level 1 at threshold 0,
strictly increasing) and nonnegative score, `calculate_level` is the
greatest tabled level whose threshold is at most the score;
`get_xp_to_next_level` is `none` at or above the max level and otherwise
`max 0` of the truncated remaining XP; and on the table
`{1: 0, 2: 14, 3: 31}` with cumulative score 14 the pair is level 2 with
17 XP to the next level. -/
theorem level_progression_spec :
    (∀ (t : XpTable) (xp : ℚ), IsProgressionTable t → 0 ≤ xp →
       (∃ p ∈ t, p.1 = calculate_level t xp ∧ (p.2 : ℚ) ≤ xp) ∧
       (∀ p ∈ t, (p.2 : ℚ) ≤ xp → p.1 ≤ calculate_level t xp)) ∧
    (∀ (t : XpTable) (lvl : ℤ) (xp : ℚ),
       max_level t ≤ lvl → get_xp_to_next_level t lvl xp = none) ∧
    (∀ (t : XpTable) (lvl : ℤ) (xp : ℚ) (nxt : ℤ),
       lvl < max_level t → get_required_xp t (lvl + 1) = some nxt →
       get_xp_to_next_level t lvl xp = some (max 0 (pyInt ((nxt : ℚ) - xp)))) ∧
    (calculate_level [(1, 0), (2, 14), (3, 31)] 14 = 2 ∧
     get_xp_to_next_level [(1, 0), (2, 14), (3, 31)] 2 14 = some 17) := by
  refine ⟨fun t xp ht h0 => ⟨?_, ?_⟩, fun t lvl xp h => ?_,
    fun t lvl xp nxt h1 h2 => ?_, by decide, ?_⟩
  · obtain ⟨rest, hshape⟩ := progTable_shape ht
    rcases calcLevelGo_eq_or_mem xp t 1 with h1 | ⟨p, hp, h2, h3⟩
    · refine ⟨(1, 0), ?_, ?_, by simpa using h0⟩
      · rw [hshape]; exact List.mem_cons_self _ _
      · simpa [calculate_level] using h1.symm
    · exact ⟨p, hp, h2, h3⟩
  · intro p hp hpx
    exact calcLevelGo_upper xp t 1 ht.2.1 ht.2.2 p hp hpx
  · unfold get_xp_to_next_level
    rw [if_pos h]
  · unfold get_xp_to_next_level
    rw [if_neg (not_le.mpr h1), h2]
  · have h17 : ((31 : ℤ) : ℚ) - 14 = 17 := by norm_num
    norm_num [get_xp_to_next_level, max_level, get_required_xp, pyInt, h17]

/-- Witness for C6: the general part applied to the concrete table
`{1: 0, 2: 14, 3: 31}` at score 14. -/
theorem level_progression_spec_witness :
    (∃ p ∈ ([(1, 0), (2, 14), (3, 31)] : XpTable),
       p.1 = calculate_level [(1, 0), (2, 14), (3, 31)] 14 ∧ (p.2 : ℚ) ≤ 14) ∧
    (∀ p ∈ ([(1, 0), (2, 14), (3, 31)] : XpTable),
       (p.2 : ℚ) ≤ 14 → p.1 ≤ calculate_level [(1, 0), (2, 14), (3, 31)] 14) :=
  level_progression_spec.1 [(1, 0), (2, 14), (3, 31)] 14 (by decide) (by decide)

/-- C9: `calculate_level` is monotone in the cumulative score over any
well-formed progression table. -/
theorem calculate_level_monotone (t : XpTable) (a b : ℚ)
    (ht : IsProgressionTable t) (_h0 : 0 ≤ a) (hab : a ≤ b) :
    calculate_level t a ≤ calculate_level t b := by
  unfold calculate_level
  exact calcLevelGo_mono a b hab t 1 ht.2.1 (progTable_one_le ht)

/-- Witness for C9 on the concrete table at scores 3 and 20. -/
theorem calculate_level_monotone_witness :
    calculate_level [(1, 0), (2, 14), (3, 31)] 3 ≤
      calculate_level [(1, 0), (2, 14), (3, 31)] 20 :=
  calculate_level_monotone [(1, 0), (2, 14), (3, 31)] 3 20 (by decide)
    (by decide) (by decide)

/-- C10: `check_level_up` never reports a level below the current one:
its reported level is at least `current_level`, and whenever the level
computed from the score is at most `current_level` (in particular when
the score falls below the current threshold) it returns
`(false, current_level)`. -/
theorem check_level_up_never_decreases (t : XpTable) (cl : ℤ) (xp : ℚ) :
    cl ≤ (check_level_up t cl xp).2 ∧
    (calculate_level t xp ≤ cl → check_level_up t cl xp = (false, cl)) := by
  unfold check_level_up
  by_cases h1 : max_level t ≤ cl
  · simp [h1]
  · by_cases h2 : cl < calculate_level t xp
    · refine ⟨?_, fun hle => absurd h2 (not_lt.mpr hle)⟩
      simp only [if_neg h1, if_pos h2]
      exact le_of_lt h2
    · simp [h1, h2]

/-- Witness for C10: the implication discharged on the concrete table at
current level 5 and score 0. -/
theorem check_level_up_never_decreases_witness :
    (5 : ℤ) ≤ (check_level_up [(1, 0), (2, 14), (3, 31)] 5 0).2 ∧
    check_level_up [(1, 0), (2, 14), (3, 31)] 5 0 = (false, 5) :=
  ⟨(check_level_up_never_decreases [(1, 0), (2, 14), (3, 31)] 5 0).1,
   (check_level_up_never_decreases [(1, 0), (2, 14), (3, 31)] 5 0).2 (by decide)⟩

/-! ### The truncation bound -/

/-- The separator fallback never grows its input. -/
lemma sep_loop_length_le (truncated : List Char) (max_len : Nat)
    (h : truncated.length ≤ max_len) :
    ∀ seps : List Char, (sep_loop truncated max_len seps).length ≤ max_len := by
  intro seps
  induction seps with
  | nil => simpa [sep_loop] using h
  | cons c cs ih =>
    rw [sep_loop]
    cases hf : pyRfindNat truncated [c] with
    | none => exact ih
    | some pos =>
      dsimp only
      by_cases hp : max_len / 2 < pos
      · rw [if_pos hp]
        have h1 : (truncated.take (pos + 1)).length ≤ truncated.length := by
          rw [List.length_take]; omega
        omega
      · rw [if_neg hp]
        exact ih

/-- C7: for every text and every budget, the length of
`_truncate_analysis(text, max_len)` is at most `max_len`. -/
theorem truncate_analysis_length_le (text : List Char) (max_len : Nat) :
    (truncate_analysis text max_len).length ≤ max_len := by
  simp only [truncate_analysis]
  by_cases h : text.length ≤ max_len
  · rw [if_pos h]; exact h
  · rw [if_neg h]
    by_cases hc : find_summary text summary_markers ≠ [] ∧
        (find_summary text summary_markers).length + 10 < max_len
    · rw [if_pos hc]
      obtain ⟨hne, hlen⟩ := hc
      cases hf : pyFindNat text ['\n'] with
      | none => dsimp only; omega
      | some fle =>
        dsimp only
        by_cases hq : 0 < fle ∧
            fle + (find_summary text summary_markers).length + 1 ≤ max_len
        · rw [if_pos hq]
          obtain ⟨hpos, hle⟩ := hq
          have h1 : (text.take fle).length ≤ fle := by
            rw [List.length_take]; omega
          simp only [List.length_append, List.length_cons]
          omega
        · rw [if_neg hq]; omega
    · rw [if_neg hc]
      apply sep_loop_length_le
      rw [List.length_take]; omega

/-! ### The think-span fallback of the sanitizer -/

/-- C8 counterexample: the sentence splitter of the fallback is
`re.split(r"[。\n]", ...)` — the ASCII period is not a separator — so the
payload `"<think>idea one. idea two</think>"` sanitizes to the whole span
`"idea one. idea two"`, not to `"idea two"` as the claim states. -/
theorem extract_ascii_period_counterexample :
    extract_analysis_text "<think>idea one. idea two</think>".toList =
      "idea one. idea two".toList ∧
    "idea one. idea two".toList ≠ "idea two".toList := by
  exact ⟨by decide, by decide⟩

/-- C8 amended: when removing the reasoning span leaves the working text
empty (after the remnant scrub and strip) and the span's contents contain
a non-empty sentence-or-line — sentences split on the Japanese full stop
and line breaks, not on the ASCII period — the sanitizer returns the last
such sentence, fed through the remaining markup-flattening, id-scrubbing
and trimming stages; in particular
`"<think>idea one。idea two</think>"` sanitizes to `"idea two"`. -/
theorem extract_think_fallback_spec :
    (∀ (raw lastS : List Char),
       pyStrip (jsonRemnantSub (removeUnclosedThink (removeThinkPairs
           (unescapeNewlines (jsonExtractResponse raw))))) = [] →
       (sentencesOf (think_content (unescapeNewlines
           (jsonExtractResponse raw)))).getLast? = some lastS →
       extract_analysis_text raw = postprocess_stages lastS) ∧
    extract_analysis_text "<think>idea one。idea two</think>".toList =
      "idea two".toList := by
  refine ⟨fun raw lastS hempty hlast => ?_, by decide⟩
  have htc : think_content (unescapeNewlines (jsonExtractResponse raw)) ≠ [] := by
    intro h0
    rw [h0] at hlast
    have hnil : sentencesOf ([] : List Char) = [] := rfl
    rw [hnil] at hlast
    exact absurd hlast (by simp)
  simp only [extract_analysis_text]
  rw [hempty, hlast]
  rw [if_pos ⟨rfl, htc⟩]

/-- Witness for C8: the fallback routing applied to the concrete payload
with a Japanese full stop. -/
theorem extract_think_fallback_spec_witness :
    extract_analysis_text "<think>idea one。idea two</think>".toList =
      postprocess_stages "idea two".toList :=
  extract_think_fallback_spec.1 "<think>idea one。idea two</think>".toList
    "idea two".toList (by decide) (by decide)

end ImomaruBot
